import Mathlib

/-!
Shallow embedding of the starttls-go negotiation engine
(`starttls/starttls.go`).  Strings on the wire are modelled as lists of
byte values (`List Nat`, entries below 256 for real traffic).  The
buffered connection (`bufio.ReadWriter` around a `net.Conn`) is modelled
by the `Reader`, and the `Conn` record: `Reader.buf` is the content of
the bufio read buffer, `Reader.chunks` the successive byte groups that
future reads of the underlying connection will return (after the last
chunk the connection reports end of stream), `wbuf` the bytes written to
the bufio writer but not yet flushed, `sent` the bytes flushed onto the
network, and `cancels` records, for each `readLine` call in order,
whether the context fires before that read completes.
-/

namespace STLS

instance {ε α : Type} [DecidableEq ε] [DecidableEq α] : DecidableEq (Except ε α) := fun a b =>
  match a, b with
  | .error x, .error y =>
      if h : x = y then .isTrue (by rw [h]) else .isFalse (by intro hc; cases hc; exact h rfl)
  | .ok x, .ok y =>
      if h : x = y then .isTrue (by rw [h]) else .isFalse (by intro hc; cases hc; exact h rfl)
  | .error _, .ok _ => .isFalse (by intro hc; cases hc)
  | .ok _, .error _ => .isFalse (by intro hc; cases hc)

/-- Byte values of an ASCII Lean string, modelling a Go string literal. -/
def bytes (s : String) : List Nat := s.data.map Char.toNat

/-- Error values produced by the engine.  `wrap msg e` models
`fmt.Errorf` with a `%w` verb: the message text around the wrapped
error.  `startTLSNotSupported` models `ErrStartTLSNotSupported` together
with the detail text appended to it, `invalidResponse` models
`ErrInvalidResponse` with the offending line, `unsupportedProtocol`
models `ErrUnsupportedProtocol` with the port, `eof` an underlying
read failure (end of stream), and `cancelled` the context error. -/
inductive Err where
  | startTLSNotSupported (detail : List Nat)
  | invalidResponse (line : List Nat)
  | unsupportedProtocol (port : String)
  | unsupportedVersion (b : Nat)
  | packetTooShort
  | eof
  | cancelled
  | wrap (msg : String) (e : Err)
deriving DecidableEq

/-- The bufio read side: current buffer content plus the byte groups the
underlying connection will deliver on future reads. -/
structure Reader where
  buf : List Nat
  chunks : List (List Nat)
deriving DecidableEq

/-- All bytes still obtainable from the reader. -/
def Reader.totalBytes (r : Reader) : Nat :=
  r.buf.length + (r.chunks.map List.length).sum

/-- Everything up to and including the first newline byte (10). -/
def takeLine : List Nat → List Nat
  | [] => []
  | b :: rest => if b = 10 then [b] else b :: takeLine rest

/-- Everything after the first newline byte (10). -/
def dropLine : List Nat → List Nat
  | [] => []
  | b :: rest => if b = 10 then rest else dropLine rest

/-- `bufio.Reader.ReadString` with delimiter the newline byte: if the
buffer holds a newline, return the prefix through it; otherwise refill
the buffer one connection read at a time; end of stream before a newline
is an error (the partially read data is then discarded by `readLine`). -/
def fillLine (buf : List Nat) : List (List Nat) → Except Err (List Nat × Reader)
  | [] =>
      if 10 ∈ buf then .ok (takeLine buf, ⟨dropLine buf, []⟩)
      else .error .eof
  | c :: cs =>
      if 10 ∈ buf then .ok (takeLine buf, ⟨dropLine buf, c :: cs⟩)
      else fillLine (buf ++ c) cs

/-- `io.ReadFull` of `n` bytes from the buffered reader: refill until the
buffer holds `n` bytes, return them; end of stream first is an error. -/
def fillN (n : Nat) (buf : List Nat) : List (List Nat) → Except Err (List Nat × Reader)
  | [] =>
      if n ≤ buf.length then .ok (buf.take n, ⟨buf.drop n, []⟩)
      else .error .eof
  | c :: cs =>
      if n ≤ buf.length then .ok (buf.take n, ⟨buf.drop n, c :: cs⟩)
      else fillN n (buf ++ c) cs

/-- The buffered connection together with the cancellation schedule. -/
structure Conn where
  rd : Reader
  wbuf : List Nat
  sent : List Nat
  cancels : List Bool
deriving DecidableEq

/-- `readLine(ctx, reader)`: races the context against one
`ReadString` call.  If the context fires before the read completes the
context error is returned (the abandoned read belongs to a goroutine the
caller never rejoins; the caller aborts the negotiation, so the reader
state after a cancellation is never consulted and is left unchanged
here).  Otherwise the read result is returned: the raw line including
its newline, or the read error. -/
def readLine (c : Conn) : Except Err (List Nat) × Conn :=
  if c.cancels.headD false then
    (.error .cancelled, { c with cancels := c.cancels.tail })
  else
    match fillLine c.rd.buf c.rd.chunks with
    | .error e => (.error e, { c with cancels := c.cancels.tail })
    | .ok (line, r) => (.ok line, { c with rd := r, cancels := c.cancels.tail })

/-- `bufio.Writer.WriteString` (and `Write`): append to the write
buffer.  The model writer never fails, so the error paths the Go code
checks after each write are unreachable here. -/
def writeString (c : Conn) (s : List Nat) : Conn :=
  { c with wbuf := c.wbuf ++ s }

/-- `bufio.Writer.Flush`: move the write buffer onto the wire. -/
def flush (c : Conn) : Conn :=
  { c with wbuf := [], sent := c.sent ++ c.wbuf }

/-! ### MySQL driver (binary codec) -/

def clientSSL : Nat := 0x800
def clientProtocol41 : Nat := 0x00000200
def clientSecureConn : Nat := 0x00008000
def mysqlProtocolVersion : Nat := 10
def maxMySQLPacketSize : Nat := 16777215
def utf8GeneralCI : Nat := 33

/-- Outcome of `parseHandshakePacket`.  Go can also panic here (an index
out of range is an uncatchable runtime fault, not a returned error), so
the model separates that outcome from returned errors. -/
inductive ParseOut where
  | ok (caps : Nat)
  | err (e : Err)
  | panicked (msg : String)
deriving DecidableEq

/-- The scanning loop `for pos < len(body) && body[pos] != 0 { pos++ }`,
started at the position whose suffix is the argument: the number of
leading nonzero bytes of that suffix. -/
def scanNull : List Nat → Nat
  | [] => 0
  | b :: rest => if b = 0 then 0 else scanNull rest + 1

/-- `parseHandshakePacket`: validate the version tag, skip the
null-terminated server version, thread id (4), auth-data-1 (8), a second
null-terminated field, null terminator and filler, then read the 16-bit
little-endian capability flags.  On an empty body the Go code takes the
error branch of `len(body) == 0 || body[0] != mysqlProtocolVersion` but
the `fmt.Errorf` argument `body[0]` is evaluated on the empty slice,
which panics. -/
def parseHandshakePacket (body : List Nat) : ParseOut :=
  match body with
  | [] => .panicked "runtime error: index out of range"
  | v :: _ =>
    if v ≠ mysqlProtocolVersion then .err (.unsupportedVersion v)
    else
      let pos1 := 1 + scanNull (body.drop 1)
      let pos2 := pos1 + 1 + 4 + 8
      let pos3 := pos2 + scanNull (body.drop pos2)
      let pos := pos3 + 1 + 1
      if pos + 2 > body.length then .err .packetTooShort
      else .ok ((body.getD pos 0) ||| ((body.getD (pos + 1) 0) <<< 8))

/-- `createSSLRequestPacket`: a 36-byte packet, 4-byte header (payload
length 32, sequence number 1) and a 32-byte body: the 4-byte
little-endian client flags, 4-byte little-endian max packet size, the
charset byte, and zero padding (indices 13 through 35 of the
zero-initialised slice are never assigned). -/
def createSSLRequestPacket : List Nat :=
  let clientFlags := clientSSL ||| clientProtocol41 ||| clientSecureConn
  [32, 0, 0, 1,
   clientFlags % 256, (clientFlags >>> 8) % 256,
   (clientFlags >>> 16) % 256, (clientFlags >>> 24) % 256,
   maxMySQLPacketSize % 256, (maxMySQLPacketSize >>> 8) % 256,
   (maxMySQLPacketSize >>> 16) % 256, (maxMySQLPacketSize >>> 24) % 256,
   utf8GeneralCI] ++ List.replicate 23 0

/-- `readMySQLPacket`: read the 4 header bytes, decode the 24-bit
little-endian length from the first 3, read that many body bytes. -/
def readMySQLPacket (c : Conn) : Except Err (List Nat) × Conn :=
  match fillN 4 c.rd.buf c.rd.chunks with
  | .error e => (.error (.wrap "mysql: failed to read packet header" e), c)
  | .ok (header, r1) =>
    match fillN ((header.getD 0 0) ||| ((header.getD 1 0) <<< 8) ||| ((header.getD 2 0) <<< 16))
        r1.buf r1.chunks with
    | .error e => (.error (.wrap "mysql: failed to read packet body" e), { c with rd := r1 })
    | .ok (body, r2) => (.ok body, { c with rd := r2 })

/-- Result of one driver handshake (or of `StartTLS`). -/
inductive HRes where
  | ok
  | err (e : Err)
  | panicked (msg : String)
deriving DecidableEq

/-- `mysqlProtocol.Handshake`: read and parse the handshake packet,
check the SSL capability bit, and on success write and flush the SSL
request packet; nothing further is read. -/
def mysqlHandshake (c : Conn) : HRes × Conn :=
  match readMySQLPacket c with
  | (.error e, c1) => (.err e, c1)
  | (.ok body, c1) =>
    match parseHandshakePacket body with
    | .panicked m => (.panicked m, c1)
    | .err e => (.err e, c1)
    | .ok capabilities =>
      if capabilities &&& clientSSL = 0 then
        (.err (.startTLSNotSupported (bytes "MySQL server does not support SSL")), c1)
      else
        (.ok, flush (writeString c1 createSSLRequestPacket))

/-! ### Line reading consumes bytes (termination of the driver loops) -/

theorem takeLine_append_dropLine (l : List Nat) (h : 10 ∈ l) :
    takeLine l ++ dropLine l = l := by
  induction l with
  | nil => cases h
  | cons b rest ih =>
    by_cases hb : b = 10
    · simp [takeLine, dropLine, hb]
    · have hr : 10 ∈ rest := by
        cases List.mem_cons.mp h with
        | inl h1 => exact absurd h1.symm hb
        | inr h2 => exact h2
      simp [takeLine, dropLine, hb, ih hr]

theorem takeLine_length_pos (l : List Nat) (h : 10 ∈ l) :
    0 < (takeLine l).length := by
  cases l with
  | nil => cases h
  | cons b rest =>
    by_cases hb : b = 10 <;> simp [takeLine, hb]

theorem fillLine_ok_totalBytes (buf : List Nat) (chunks : List (List Nat))
    (line : List Nat) (r : Reader)
    (h : fillLine buf chunks = .ok (line, r)) :
    r.totalBytes + line.length = buf.length + (chunks.map List.length).sum ∧
      0 < line.length := by
  induction chunks generalizing buf with
  | nil =>
    by_cases hm : 10 ∈ buf
    · simp only [fillLine, if_pos hm, Except.ok.injEq, Prod.mk.injEq] at h
      obtain ⟨hl, hr⟩ := h
      subst hl; subst hr
      have hsplit := takeLine_append_dropLine buf hm
      have hlen : (takeLine buf).length + (dropLine buf).length = buf.length := by
        have := congrArg List.length hsplit
        simpa using this
      constructor
      · simp [Reader.totalBytes]; omega
      · exact takeLine_length_pos buf hm
    · simp [fillLine, if_neg hm] at h
  | cons c cs ih =>
    by_cases hm : 10 ∈ buf
    · simp only [fillLine, if_pos hm, Except.ok.injEq, Prod.mk.injEq] at h
      obtain ⟨hl, hr⟩ := h
      subst hl; subst hr
      have hsplit := takeLine_append_dropLine buf hm
      have hlen : (takeLine buf).length + (dropLine buf).length = buf.length := by
        have := congrArg List.length hsplit
        simpa using this
      constructor
      · simp [Reader.totalBytes]; omega
      · exact takeLine_length_pos buf hm
    · simp only [fillLine, if_neg hm] at h
      have := ih (buf ++ c) h
      simpa [List.length_append, Nat.add_assoc] using this

theorem readLine_ok_totalBytes (c : Conn) (line : List Nat) (c1 : Conn)
    (h : readLine c = (.ok line, c1)) :
    c1.rd.totalBytes < c.rd.totalBytes := by
  unfold readLine at h
  split at h
  · simp at h
  · split at h
    · simp at h
    · rename_i l0 r0 hf
      simp only [Prod.mk.injEq, Except.ok.injEq] at h
      obtain ⟨hl, hc1⟩ := h
      have := fillLine_ok_totalBytes c.rd.buf c.rd.chunks l0 r0 hf
      have hrd : c1.rd = r0 := by rw [← hc1]
      rw [hrd]
      simp only [Reader.totalBytes] at this ⊢
      omega

/-! ### Greeting, EHLO and STARTTLS exchanges -/

/-- `expectGreeting`: read lines, discarding those the pattern does not
match, until one matches or a read fails. -/
def expectGreeting (pat : List Nat → Bool) (c : Conn) : Option Err × Conn :=
  match h : readLine c with
  | (.error e, c1) => (some e, c1)
  | (.ok line, c1) =>
    if pat line then (none, c1)
    else expectGreeting pat c1
termination_by c.rd.totalBytes
decreasing_by
  apply readLine_ok_totalBytes
  assumption

/-- The read loop of `sendEHLO`: each line must start with 250, and the
loop stops after a line that leaves the bufio buffer empty. -/
def ehloLoop (c : Conn) : Option Err × Conn :=
  match h : readLine c with
  | (.error e, c1) => (some e, c1)
  | (.ok line, c1) =>
    if (bytes "250").isPrefixOf line then
      if c1.rd.buf.length = 0 then (none, c1)
      else ehloLoop c1
    else (some (.invalidResponse line), c1)
termination_by c.rd.totalBytes
decreasing_by
  apply readLine_ok_totalBytes
  assumption

/-- `smtpProtocol.sendEHLO`: write and flush the EHLO command, then
drain the multi-line reply. -/
def sendEHLO (c : Conn) : Option Err × Conn :=
  ehloLoop (flush (writeString c (bytes "EHLO tlstools.com\r\n")))

/-- Go `unicode.IsSpace` on the ASCII bytes occurring in responses. -/
def isSpaceByte (b : Nat) : Bool :=
  b = 32 || b = 9 || b = 10 || b = 11 || b = 12 || b = 13

/-- `strings.TrimSpace` on byte lists. -/
def trimSpace (l : List Nat) : List Nat :=
  ((l.dropWhile isSpaceByte).reverse.dropWhile isSpaceByte).reverse

/-- The regular expressions used by the drivers are all anchored
literals (such as line start followed by a literal); `MatchString` for
such a pattern is exactly a literal test on the start of the line. -/
def matchStarts (lit : String) (line : List Nat) : Bool :=
  (bytes lit).isPrefixOf line

/-- `sendStartTLS`: write and flush the upgrade command, read exactly
one line, and check it against the response pattern; on mismatch fail
with `ErrStartTLSNotSupported` carrying the trimmed response. -/
def sendStartTLS (authMsg : List Nat) (respPat : List Nat → Bool) (c : Conn) :
    Option Err × Conn :=
  match readLine (flush (writeString c authMsg)) with
  | (.error e, c1) => (some e, c1)
  | (.ok line, c1) =>
    if respPat line then (none, c1)
    else (some (.startTLSNotSupported (trimSpace line)), c1)

/-! ### The five drivers and the dispatcher -/

/-- `smtpProtocol.Handshake` (patterns from `newSMTPProtocol`). -/
def smtpHandshake (c : Conn) : HRes × Conn :=
  match expectGreeting (matchStarts "220 ") c with
  | (some e, c1) => (.err (.wrap "smtp: greeting failed" e), c1)
  | (none, c1) =>
    match sendEHLO c1 with
    | (some e, c2) => (.err (.wrap "smtp: EHLO failed" e), c2)
    | (none, c2) =>
      match sendStartTLS (bytes "STARTTLS\r\n") (matchStarts "220 ") c2 with
      | (some e, c3) => (.err (.wrap "smtp: STARTTLS failed" e), c3)
      | (none, c3) => (.ok, c3)

/-- `imapProtocol.Handshake` (patterns from `newIMAPProtocol`). -/
def imapHandshake (c : Conn) : HRes × Conn :=
  match expectGreeting (matchStarts "* ") c with
  | (some e, c1) => (.err (.wrap "imap: greeting failed" e), c1)
  | (none, c1) =>
    match sendStartTLS (bytes "a001 STARTTLS\r\n") (matchStarts "a001 OK ") c1 with
    | (some e, c2) => (.err (.wrap "imap: STARTTLS failed" e), c2)
    | (none, c2) => (.ok, c2)

/-- `pop3Protocol.Handshake` (patterns from `newPOP3Protocol`). -/
def pop3Handshake (c : Conn) : HRes × Conn :=
  match expectGreeting (matchStarts "+OK ") c with
  | (some e, c1) => (.err (.wrap "pop3: greeting failed" e), c1)
  | (none, c1) =>
    match sendStartTLS (bytes "STLS\r\n") (matchStarts "+OK ") c1 with
    | (some e, c2) => (.err (.wrap "pop3: STARTTLS failed" e), c2)
    | (none, c2) => (.ok, c2)

/-- `ftpProtocol.Handshake` (patterns from `newFTPProtocol`). -/
def ftpHandshake (c : Conn) : HRes × Conn :=
  match expectGreeting (matchStarts "220 ") c with
  | (some e, c1) => (.err (.wrap "ftp: greeting failed" e), c1)
  | (none, c1) =>
    match sendStartTLS (bytes "AUTH TLS\r\n") (matchStarts "234 ") c1 with
    | (some e, c2) => (.err (.wrap "ftp: AUTH TLS failed" e), c2)
    | (none, c2) => (.ok, c2)

/-- The `protocols` registry: port to driver constructor. -/
def protocols (port : String) : Option (Conn → HRes × Conn) :=
  if port = "21" then some ftpHandshake
  else if port = "25" then some smtpHandshake
  else if port = "587" then some smtpHandshake
  else if port = "110" then some pop3Handshake
  else if port = "143" then some imapHandshake
  else if port = "3306" then some mysqlHandshake
  else none

/-- Ports that use direct TLS connections. -/
def implicitTLSPorts : List String := ["443", "465", "993", "995", "3389"]

/-- The ports present in the `protocols` registry. -/
def registryPorts : List String := ["21", "25", "587", "110", "143", "3306"]

/-- The fresh `bufio.ReadWriter` that `StartTLS` wraps around the
connection: empty buffers; `chunks` are the future reads the connection
will deliver and `cancels` the cancellation schedule. -/
def newConn (chunks : List (List Nat)) (cancels : List Bool) : Conn :=
  { rd := { buf := [], chunks := chunks }, wbuf := [], sent := [], cancels := cancels }

/-- `StartTLS(ctx, conn, port)`: dispatch on the port. -/
def StartTLS (port : String) (chunks : List (List Nat)) (cancels : List Bool) :
    HRes × Conn :=
  match protocols port with
  | some handshake => handshake (newConn chunks cancels)
  | none =>
    if port ∈ implicitTLSPorts then (.ok, newConn chunks cancels)
    else (.err (.unsupportedProtocol port), newConn chunks cancels)

/-! ### Helper lemmas -/

theorem lor_shiftLeft_eq_add (k a b : Nat) (h : a < 2 ^ k) :
    a ||| (b <<< k) = a + 2 ^ k * b := by
  apply Nat.eq_of_testBit_eq
  intro i
  have hadd : a + 2 ^ k * b = 2 ^ k * b + a := by ring
  rw [hadd, Nat.testBit_mul_pow_two_add b h i]
  simp only [Nat.testBit_lor, Nat.testBit_shiftLeft]
  by_cases hi : i < k
  · simp [hi, Nat.not_le.mpr hi]
  · have ha : a.testBit i = false := by
      apply Nat.testBit_lt_two_pow
      exact lt_of_lt_of_le h (Nat.pow_le_pow_right (by norm_num) (Nat.not_lt.mp hi))
    simp [hi, ha, Nat.not_lt.mp hi]

theorem getD_lt_256 (l : List Nat) (h : ∀ b ∈ l, b < 256) (i : Nat) :
    l.getD i 0 < 256 := by
  by_cases hi : i < l.length
  · rw [List.getD_eq_getElem l 0 hi]
    exact h _ (List.getElem_mem hi)
  · rw [List.getD_eq_default l 0 (Nat.not_lt.mp hi)]
    norm_num

theorem scanNull_eq_takeWhile (l : List Nat) :
    scanNull l = (l.takeWhile (fun b => b ≠ 0)).length := by
  induction l with
  | nil => rfl
  | cons b rest ih =>
    by_cases hb : b = 0
    · simp [scanNull, List.takeWhile_cons, hb]
    · simp [scanNull, List.takeWhile_cons, hb, ih]

theorem fillN_err (n : Nat) (buf : List Nat) (chunks : List (List Nat))
    (h : buf.length + (chunks.map List.length).sum < n) :
    fillN n buf chunks = .error .eof := by
  induction chunks generalizing buf with
  | nil =>
    simp only [fillN]
    rw [if_neg]
    simp only [List.map_nil, List.sum_nil] at h
    omega
  | cons c cs ih =>
    simp only [fillN]
    simp only [List.map_cons, List.sum_cons] at h
    rw [if_neg (by omega)]
    apply ih
    simp only [List.length_append]
    omega

theorem fillN_ok (n : Nat) (buf : List Nat) (chunks : List (List Nat))
    (h : n ≤ buf.length + (chunks.map List.length).sum) :
    ∃ r : Reader,
      fillN n buf chunks = .ok ((buf ++ chunks.flatten).take n, r) ∧
      r.buf ++ r.chunks.flatten = (buf ++ chunks.flatten).drop n := by
  induction chunks generalizing buf with
  | nil =>
    simp only [List.map_nil, List.sum_nil, Nat.add_zero] at h
    refine ⟨⟨buf.drop n, []⟩, ?_, ?_⟩
    · simp only [fillN]
      rw [if_pos h]
      simp
    · simp
  | cons c cs ih =>
    by_cases hn : n ≤ buf.length
    · refine ⟨⟨buf.drop n, c :: cs⟩, ?_, ?_⟩
      · simp only [fillN]
        rw [if_pos hn, List.flatten_cons, ← List.append_assoc,
          List.take_append_of_le_length (by simp only [List.length_append]; omega)]
        rw [List.take_append_of_le_length hn]
      · simp only [List.flatten_cons, ← List.append_assoc]
        rw [List.drop_append_of_le_length (by simp only [List.length_append]; omega),
          List.drop_append_of_le_length hn]
    · simp only [List.map_cons, List.sum_cons] at h
      obtain ⟨r, h1, h2⟩ := ih (buf ++ c)
        (by simp only [List.length_append]; omega)
      refine ⟨r, ?_, ?_⟩
      · simp only [fillN]
        rw [if_neg hn, h1]
        simp [List.flatten_cons, List.append_assoc]
      · rw [h2]
        simp [List.flatten_cons, List.append_assoc]

theorem readMySQLPacket_snd (c : Conn) :
    ∃ r, (readMySQLPacket c).2 = { c with rd := r } := by
  unfold readMySQLPacket
  split
  · exact ⟨c.rd, rfl⟩
  · split
    · exact ⟨_, rfl⟩
    · exact ⟨_, rfl⟩

theorem readMySQLPacket_preserves (c c1 : Conn) (out : Except Err (List Nat))
    (h : readMySQLPacket c = (out, c1)) :
    c1.wbuf = c.wbuf ∧ c1.sent = c.sent ∧ c1.cancels = c.cancels := by
  obtain ⟨r, hr⟩ := readMySQLPacket_snd c
  rw [h] at hr
  have hc1 : c1 = { c with rd := r } := hr
  subst hc1
  exact ⟨rfl, rfl, rfl⟩

/-- All bytes still obtainable from the buffered read side of a
connection, in order. -/
def availBytes (c : Conn) : List Nat := c.rd.buf ++ c.rd.chunks.flatten

/-- The outcome of `n` successive readLine calls on a connection: the
lines read and the state after them, or none if any of those reads
fails. -/
def linesFrom : Nat → Conn → Option (List (List Nat) × Conn)
  | 0, c => some ([], c)
  | n + 1, c =>
    match readLine c with
    | (.ok l, c1) =>
      match linesFrom n c1 with
      | some (ls, c2) => some (l :: ls, c2)
      | none => none
    | (.error _, _) => none

/-- Handshake packet body used as witness data: empty server version
string, thread id, auth data part 1, empty second field, null and
filler, then capability flags 0x0800 little-endian. -/
def mysqlBody0 : List Nat := [10, 0, 1, 2, 3, 4, 1, 1, 1, 1, 1, 1, 1, 1, 0, 0, 0, 8]

/-- The capability-flags offset as the claim describes it: skip the
null-terminated string starting at index 1, skip 4 bytes (thread id)
plus 8 bytes (auth-data-1), skip a second null-terminated field, then
skip 2 more bytes (null terminator and filler). -/
def capFlagsOffsetSpec (body : List Nat) : Nat :=
  let afterVersionString := 1 + ((body.drop 1).takeWhile (fun b => b ≠ 0)).length + 1
  let afterFixed := afterVersionString + 4 + 8
  let afterSecondField := afterFixed + ((body.drop afterFixed).takeWhile (fun b => b ≠ 0)).length
  afterSecondField + 2

theorem takeLine_append_left (l t : List Nat) (h : 10 ∈ l) :
    takeLine (l ++ t) = takeLine l := by
  induction l with
  | nil => cases h
  | cons b rest ih =>
    by_cases hb : b = 10
    · simp [takeLine, hb]
    · have hr : 10 ∈ rest := by
        rcases List.mem_cons.mp h with h1 | h2
        · exact absurd h1.symm hb
        · exact h2
      simp [takeLine, hb, ih hr]

theorem takeLine_ends_newline (l : List Nat) (h : 10 ∈ l) :
    ∃ init, takeLine l = init ++ [10] := by
  induction l with
  | nil => cases h
  | cons b rest ih =>
    by_cases hb : b = 10
    · exact ⟨[], by simp [takeLine, hb]⟩
    · have hr : 10 ∈ rest := by
        rcases List.mem_cons.mp h with h1 | h2
        · exact absurd h1.symm hb
        · exact h2
      obtain ⟨init, hi⟩ := ih hr
      exact ⟨b :: init, by simp [takeLine, hb, hi]⟩

theorem fillLine_no_newline (buf : List Nat) (chunks : List (List Nat))
    (h : 10 ∉ buf ++ chunks.flatten) :
    fillLine buf chunks = .error .eof := by
  induction chunks generalizing buf with
  | nil =>
    simp only [fillLine]
    rw [if_neg (by simpa using h)]
  | cons c cs ih =>
    have hb : 10 ∉ buf := fun hm => h (List.mem_append.mpr (Or.inl hm))
    simp only [fillLine]
    rw [if_neg hb]
    exact ih (buf ++ c) (by
      simp only [List.flatten_cons, List.append_assoc] at h ⊢
      simpa using h)

theorem fillLine_with_newline (buf : List Nat) (chunks : List (List Nat))
    (h : 10 ∈ buf ++ chunks.flatten) :
    ∃ r, fillLine buf chunks = .ok (takeLine (buf ++ chunks.flatten), r) := by
  induction chunks generalizing buf with
  | nil =>
    simp only [List.flatten_nil, List.append_nil] at h ⊢
    exact ⟨⟨dropLine buf, []⟩, by simp [fillLine, h]⟩
  | cons c cs ih =>
    by_cases hb : 10 ∈ buf
    · refine ⟨⟨dropLine buf, c :: cs⟩, ?_⟩
      simp only [fillLine]
      rw [if_pos hb, takeLine_append_left _ _ hb]
    · have h2 : 10 ∈ (buf ++ c) ++ cs.flatten := by
        simp only [List.flatten_cons, ← List.append_assoc] at h
        exact h
      obtain ⟨r, hr⟩ := ih (buf ++ c) h2
      refine ⟨r, ?_⟩
      simp only [fillLine]
      rw [if_neg hb, hr]
      simp [List.flatten_cons, List.append_assoc]

theorem prefix250_of_continuation (line : List Nat)
    (h : (bytes "250-").isPrefixOf line = true) :
    (bytes "250").isPrefixOf line = true := by
  rw [List.isPrefixOf_iff_prefix] at h ⊢
  exact List.IsPrefix.trans (List.isPrefixOf_iff_prefix.mp (by decide)) h

theorem readLine_snd (c : Conn) :
    (readLine c).2.sent = c.sent ∧ (readLine c).2.wbuf = c.wbuf := by
  unfold readLine
  split
  · exact ⟨rfl, rfl⟩
  · split
    · exact ⟨rfl, rfl⟩
    · exact ⟨rfl, rfl⟩

theorem expectGreeting_error (pat : List Nat → Bool) (c : Conn) (e : Err) (c1 : Conn)
    (h : readLine c = (.error e, c1)) :
    expectGreeting pat c = (some e, c1) := by
  rw [expectGreeting]
  split
  · rename_i e' c1' heq
    rw [h] at heq
    cases heq
    rfl
  · rename_i line' c1' heq
    rw [h] at heq
    simp at heq

theorem expectGreeting_found (pat : List Nat → Bool) (c : Conn) (line : List Nat) (c1 : Conn)
    (h : readLine c = (.ok line, c1)) (hp : pat line = true) :
    expectGreeting pat c = (none, c1) := by
  rw [expectGreeting]
  split
  · rename_i e' c1' heq
    rw [h] at heq
    simp at heq
  · rename_i line' c1' heq
    rw [h] at heq
    cases heq
    rw [if_pos hp]

theorem expectGreeting_skip (pat : List Nat → Bool) (c : Conn) (line : List Nat) (c1 : Conn)
    (h : readLine c = (.ok line, c1)) (hp : pat line = false) :
    expectGreeting pat c = expectGreeting pat c1 := by
  rw [expectGreeting]
  split
  · rename_i e' c1' heq
    rw [h] at heq
    simp at heq
  · rename_i line' c1' heq
    rw [h] at heq
    cases heq
    rw [if_neg (by simp [hp])]

theorem ehloLoop_error (c : Conn) (e : Err) (c1 : Conn)
    (h : readLine c = (.error e, c1)) :
    ehloLoop c = (some e, c1) := by
  rw [ehloLoop]
  split
  · rename_i e' c1' heq
    rw [h] at heq
    cases heq
    rfl
  · rename_i line' c1' heq
    rw [h] at heq
    simp at heq

theorem ehloLoop_reject (c : Conn) (line : List Nat) (c1 : Conn)
    (h : readLine c = (.ok line, c1)) (hp : (bytes "250").isPrefixOf line = false) :
    ehloLoop c = (some (.invalidResponse line), c1) := by
  rw [ehloLoop]
  split
  · rename_i e' c1' heq
    rw [h] at heq
    simp at heq
  · rename_i line' c1' heq
    rw [h] at heq
    cases heq
    rw [if_neg (by simp [hp])]

theorem ehloLoop_done (c : Conn) (line : List Nat) (c1 : Conn)
    (h : readLine c = (.ok line, c1)) (hp : (bytes "250").isPrefixOf line = true)
    (hb : c1.rd.buf.length = 0) :
    ehloLoop c = (none, c1) := by
  rw [ehloLoop]
  split
  · rename_i e' c1' heq
    rw [h] at heq
    simp at heq
  · rename_i line' c1' heq
    rw [h] at heq
    cases heq
    rw [if_pos hp, if_pos hb]

theorem ehloLoop_continue (c : Conn) (line : List Nat) (c1 : Conn)
    (h : readLine c = (.ok line, c1)) (hp : (bytes "250").isPrefixOf line = true)
    (hb : c1.rd.buf.length ≠ 0) :
    ehloLoop c = ehloLoop c1 := by
  rw [ehloLoop]
  split
  · rename_i e' c1' heq
    rw [h] at heq
    simp at heq
  · rename_i line' c1' heq
    rw [h] at heq
    cases heq
    rw [if_pos hp, if_neg hb]

theorem ehloLoop_preserves (c : Conn) :
    ((ehloLoop c).2).sent = c.sent ∧ ((ehloLoop c).2).wbuf = c.wbuf := by
  induction c using ehloLoop.induct with
  | case1 c e c1 h =>
    rw [ehloLoop_error c e c1 h]
    have hs := readLine_snd c
    rw [h] at hs
    exact hs
  | case2 c line c1 h hp hb =>
    rw [ehloLoop_done c line c1 h hp hb]
    have hs := readLine_snd c
    rw [h] at hs
    exact hs
  | case3 c line c1 h hp hb ih =>
    rw [ehloLoop_continue c line c1 h hp hb]
    have hs := readLine_snd c
    rw [h] at hs
    exact ⟨ih.1.trans hs.1, ih.2.trans hs.2⟩
  | case4 c line c1 h hp =>
    rw [ehloLoop_reject c line c1 h (by rw [← Bool.not_eq_true]; exact hp)]
    have hs := readLine_snd c
    rw [h] at hs
    exact hs

theorem flush_writeString_sent (c : Conn) (s : List Nat) :
    flush (writeString c s) =
      { c with wbuf := [], sent := c.sent ++ c.wbuf ++ s } := by
  simp [flush, writeString]

theorem sendStartTLS_error (authMsg : List Nat) (pat : List Nat → Bool) (c : Conn)
    (e : Err) (c1 : Conn)
    (h : readLine (flush (writeString c authMsg)) = (.error e, c1)) :
    sendStartTLS authMsg pat c = (some e, c1) := by
  unfold sendStartTLS
  rw [h]

theorem sendStartTLS_accept (authMsg : List Nat) (pat : List Nat → Bool) (c : Conn)
    (line : List Nat) (c1 : Conn)
    (h : readLine (flush (writeString c authMsg)) = (.ok line, c1))
    (hp : pat line = true) :
    sendStartTLS authMsg pat c = (none, c1) := by
  unfold sendStartTLS
  rw [h]
  dsimp only
  rw [if_pos hp]

theorem sendStartTLS_reject (authMsg : List Nat) (pat : List Nat → Bool) (c : Conn)
    (line : List Nat) (c1 : Conn)
    (h : readLine (flush (writeString c authMsg)) = (.ok line, c1))
    (hp : pat line = false) :
    sendStartTLS authMsg pat c = (some (.startTLSNotSupported (trimSpace line)), c1) := by
  unfold sendStartTLS
  rw [h]
  dsimp only
  rw [if_neg (by simp [hp])]

theorem sendStartTLS_sent (authMsg : List Nat) (pat : List Nat → Bool) (c : Conn) :
    ((sendStartTLS authMsg pat c).2).sent = c.sent ++ c.wbuf ++ authMsg := by
  have hw : (flush (writeString c authMsg)).sent = c.sent ++ c.wbuf ++ authMsg := by
    simp [flush, writeString]
  have hs := readLine_snd (flush (writeString c authMsg))
  unfold sendStartTLS
  split
  · rename_i e c1 heq
    rw [heq] at hs
    rw [← hw]
    exact hs.1
  · rename_i line c1 heq
    rw [heq] at hs
    by_cases hp : pat line
    · rw [if_pos hp, ← hw]
      exact hs.1
    · rw [if_neg hp, ← hw]
      exact hs.1

/-! ### Claim theorems -/

theorem protocols_eq_none (port : String) (h : port ∉ registryPorts) :
    protocols port = none := by
  simp only [registryPorts, List.mem_cons, List.not_mem_nil, or_false, not_or] at h
  obtain ⟨h1, h2, h3, h4, h5, h6⟩ := h
  simp [protocols, h1, h2, h3, h4, h5, h6]

/-- C1: `StartTLS` dispatches port 21 to the FTP driver, 25 and 587 to
the SMTP driver, 110 to POP3, 143 to IMAP, 3306 to MySQL, each invoked
on the fresh buffered connection with its result returned; on the
implicit-TLS ports it returns success with the connection untouched (no
byte read or written); on any other port it returns the
unsupported-protocol error carrying the port, again with no I/O. -/
theorem C1_dispatch :
    (∀ chunks cancels, StartTLS "21" chunks cancels = ftpHandshake (newConn chunks cancels)) ∧
    (∀ chunks cancels, StartTLS "25" chunks cancels = smtpHandshake (newConn chunks cancels)) ∧
    (∀ chunks cancels, StartTLS "587" chunks cancels = smtpHandshake (newConn chunks cancels)) ∧
    (∀ chunks cancels, StartTLS "110" chunks cancels = pop3Handshake (newConn chunks cancels)) ∧
    (∀ chunks cancels, StartTLS "143" chunks cancels = imapHandshake (newConn chunks cancels)) ∧
    (∀ chunks cancels, StartTLS "3306" chunks cancels = mysqlHandshake (newConn chunks cancels)) ∧
    (∀ port chunks cancels, port ∈ implicitTLSPorts →
       StartTLS port chunks cancels = (.ok, newConn chunks cancels)) ∧
    (∀ port chunks cancels, port ∉ registryPorts → port ∉ implicitTLSPorts →
       StartTLS port chunks cancels = (.err (.unsupportedProtocol port), newConn chunks cancels)) := by
  refine ⟨fun _ _ => rfl, fun _ _ => rfl, fun _ _ => rfl, fun _ _ => rfl,
    fun _ _ => rfl, fun _ _ => rfl, ?_, ?_⟩
  · intro port chunks cancels h
    simp only [implicitTLSPorts, List.mem_cons, List.not_mem_nil, or_false] at h
    rcases h with rfl | rfl | rfl | rfl | rfl <;> rfl
  · intro port chunks cancels hreg himp
    simp [StartTLS, protocols_eq_none port hreg, himp]

/-- C2: once the handshake packet body is read and parsed, a capability
value with bit 0x800 set makes the MySQL handshake write and flush
exactly the 36-byte SSL request packet (payload-length byte 32, two zero
length bytes, sequence number 1, then the 4-byte little-endian client
flags, the 4-byte little-endian max packet size 16777215, charset byte
33, and zero padding) and return success with no further read; with the
bit clear it returns the not-supported error and writes nothing. -/
theorem C2_mysql_sslRequest (c c1 : Conn) (body : List Nat) (caps : Nat)
    (hread : readMySQLPacket c = (.ok body, c1))
    (hparse : parseHandshakePacket body = .ok caps) :
    (caps &&& 0x800 ≠ 0 →
      mysqlHandshake c =
        (.ok, { c1 with wbuf := [], sent := c1.sent ++ (c1.wbuf ++ createSSLRequestPacket) })) ∧
    (caps &&& 0x800 = 0 →
      mysqlHandshake c =
        (.err (.startTLSNotSupported (bytes "MySQL server does not support SSL")), c1) ∧
      c1.wbuf = c.wbuf ∧ c1.sent = c.sent) ∧
    createSSLRequestPacket =
      [32, 0, 0, 1] ++
        [(clientSSL ||| clientProtocol41 ||| clientSecureConn) % 256,
         ((clientSSL ||| clientProtocol41 ||| clientSecureConn) / 256) % 256,
         ((clientSSL ||| clientProtocol41 ||| clientSecureConn) / 65536) % 256,
         ((clientSSL ||| clientProtocol41 ||| clientSecureConn) / 16777216) % 256] ++
        [16777215 % 256, (16777215 / 256) % 256, (16777215 / 65536) % 256,
         (16777215 / 16777216) % 256] ++
        [33] ++ List.replicate 23 0 ∧
    createSSLRequestPacket.length = 36 := by
  refine ⟨?_, ?_, by decide, by decide⟩
  · intro hbit
    unfold mysqlHandshake
    rw [hread]
    dsimp only
    rw [hparse]
    dsimp only
    rw [if_neg (by simpa [clientSSL] using hbit)]
    simp [flush, writeString]
  · intro hbit
    unfold mysqlHandshake
    rw [hread]
    dsimp only
    rw [hparse]
    dsimp only
    rw [if_pos (by simpa [clientSSL] using hbit)]
    obtain ⟨h1, h2, _⟩ := readMySQLPacket_preserves c c1 (.ok body) hread
    exact ⟨rfl, h1, h2⟩

/-- C2 witness: a concrete handshake with the SSL bit set. -/
theorem C2_mysql_sslRequest_witness :
    mysqlHandshake (newConn [[18, 0, 0, 0] ++ mysqlBody0] []) =
      (.ok, { rd := ⟨[], []⟩, wbuf := [], sent := createSSLRequestPacket, cancels := [] }) := by
  have h := (C2_mysql_sslRequest (newConn [[18, 0, 0, 0] ++ mysqlBody0] [])
      ⟨⟨[], []⟩, [], [], []⟩ mysqlBody0 2048 (by rfl) (by rfl)).1 (by decide)
  simpa using h

/-- C3 (code bug): on a nonempty body whose first byte differs from the
supported version 10 the parser returns the unsupported-version error
carrying that byte; on the empty body, however, the Go code evaluates
body[0] inside the fmt.Errorf argument after the length guard already
fired, and panics with an index out of range instead of returning the
error.  The panic is reachable from the wire by a packet header that
declares a zero-length body. -/
theorem C3_parse_version_check :
    parseHandshakePacket [9] = .err (.unsupportedVersion 9) ∧
    parseHandshakePacket [200, 1, 2] = .err (.unsupportedVersion 200) ∧
    parseHandshakePacket [] = .panicked "runtime error: index out of range" ∧
    mysqlHandshake (newConn [[0, 0, 0, 0]] []) =
      (.panicked "runtime error: index out of range",
        { rd := ⟨[], []⟩, wbuf := [], sent := [], cancels := [] }) := by
  exact ⟨by decide, by decide, rfl, rfl⟩

/-- C4: on a body starting with byte 10 the parser returns the 16-bit
little-endian value at the offset computed by the skip sequence the
claim describes when at least 2 bytes remain there, and the packet-too-
short error otherwise. -/
theorem C4_parse_capability_offset (rest : List Nat) (hbytes : ∀ b ∈ rest, b < 256) :
    parseHandshakePacket (10 :: rest) =
      (if capFlagsOffsetSpec (10 :: rest) + 2 ≤ (10 :: rest).length then
        .ok ((10 :: rest).getD (capFlagsOffsetSpec (10 :: rest)) 0 +
          256 * (10 :: rest).getD (capFlagsOffsetSpec (10 :: rest) + 1) 0)
      else .err .packetTooShort) := by
  have hbytes10 : ∀ b ∈ 10 :: rest, b < 256 := by
    intro b hb
    rcases List.mem_cons.mp hb with rfl | hb
    · norm_num
    · exact hbytes b hb
  unfold parseHandshakePacket capFlagsOffsetSpec
  simp only [scanNull_eq_takeWhile, mysqlProtocolVersion]
  rw [if_neg (by simp)]
  generalize (((10 :: rest).drop 1).takeWhile (fun b => b ≠ 0)).length = s1
  generalize (((10 :: rest).drop (1 + s1 + 1 + 4 + 8)).takeWhile (fun b => b ≠ 0)).length = s2
  have e1 : 1 + s1 + 1 + 4 + 8 + s2 + 1 + 1 = 1 + s1 + 1 + 4 + 8 + s2 + 2 := by omega
  rw [e1]
  by_cases hle : 1 + s1 + 1 + 4 + 8 + s2 + 2 + 2 ≤ (10 :: rest).length
  · rw [if_neg (by omega), if_pos hle]
    congr 1
    rw [lor_shiftLeft_eq_add 8 _ _
      (lt_of_lt_of_le (getD_lt_256 (10 :: rest) hbytes10 _) (by norm_num))]
    norm_num
  · rw [if_pos (by omega), if_neg hle]

/-- C4 witness: a concrete well-formed handshake body. -/
theorem C4_parse_capability_offset_witness :
    parseHandshakePacket (10 :: [0, 1, 2, 3, 4, 1, 1, 1, 1, 1, 1, 1, 1, 0, 0, 0, 8]) =
      .ok 2048 := by
  have h := C4_parse_capability_offset [0, 1, 2, 3, 4, 1, 1, 1, 1, 1, 1, 1, 1, 0, 0, 0, 8]
    (by decide)
  rw [h]
  decide

/-- C5: the MySQL packet reader reads exactly 4 header bytes, decodes
the packet length as the 24-bit little-endian integer formed from the
first 3 header bytes, reads exactly that many further bytes and returns
them as the body; a stream that ends before either read completes yields
the corresponding wrapped I/O error (header-read or body-read failure),
never a protocol error. -/
theorem C5_readMySQLPacket_reads (c : Conn)
    (hbytes : ∀ b ∈ availBytes c, b < 256) :
    ((availBytes c).length < 4 →
      readMySQLPacket c = (.error (.wrap "mysql: failed to read packet header" .eof), c)) ∧
    (∀ pktLen, 4 ≤ (availBytes c).length →
      pktLen = (availBytes c).getD 0 0 + 256 * (availBytes c).getD 1 0 +
        65536 * (availBytes c).getD 2 0 →
      (4 + pktLen ≤ (availBytes c).length →
        ∃ c1, readMySQLPacket c = (.ok (((availBytes c).drop 4).take pktLen), c1) ∧
          availBytes c1 = (availBytes c).drop (4 + pktLen) ∧
          c1.wbuf = c.wbuf ∧ c1.sent = c.sent ∧ c1.cancels = c.cancels) ∧
      ((availBytes c).length < 4 + pktLen →
        (readMySQLPacket c).1 = .error (.wrap "mysql: failed to read packet body" .eof))) := by
  have htot : (availBytes c).length =
      c.rd.buf.length + (c.rd.chunks.map List.length).sum := by
    simp [availBytes, List.length_append, List.length_flatten]
  constructor
  · intro hlt
    unfold readMySQLPacket
    rw [fillN_err 4 c.rd.buf c.rd.chunks (by omega)]
  · intro pktLen hge hlen
    obtain ⟨r1, hf1, hr1⟩ := fillN_ok 4 c.rd.buf c.rd.chunks (by omega)
    have hav : 4 ≤ (c.rd.buf ++ c.rd.chunks.flatten).length := by
      simpa [availBytes] using hge
    have hhead : ∀ i, i < 4 →
        ((c.rd.buf ++ c.rd.chunks.flatten).take 4).getD i 0 = (availBytes c).getD i 0 := by
      intro i hi
      have hi4 : i < ((c.rd.buf ++ c.rd.chunks.flatten).take 4).length := by
        rw [List.length_take]
        omega
      have hilen : i < (availBytes c).length := by
        simp only [availBytes, List.length_append, List.length_flatten]
        simp only [List.length_append, List.length_flatten] at hav
        omega
      rw [List.getD_eq_getElem _ 0 hi4, List.getD_eq_getElem _ 0 hilen]
      simp only [availBytes]
      exact List.getElem_take _
    have hlor : ((c.rd.buf ++ c.rd.chunks.flatten).take 4).getD 0 0 |||
        ((c.rd.buf ++ c.rd.chunks.flatten).take 4).getD 1 0 <<< 8 |||
        ((c.rd.buf ++ c.rd.chunks.flatten).take 4).getD 2 0 <<< 16 = pktLen := by
      rw [hhead 0 (by norm_num), hhead 1 (by norm_num), hhead 2 (by norm_num)]
      rw [lor_shiftLeft_eq_add 8 _ _
        (lt_of_lt_of_le (getD_lt_256 _ hbytes 0) (by norm_num))]
      rw [lor_shiftLeft_eq_add 16 _ _ (by
        have h0 := getD_lt_256 _ hbytes 0
        have h1 := getD_lt_256 _ hbytes 1
        have : (2 : Nat) ^ 16 = 65536 := by norm_num
        rw [this]
        have : (2 : Nat) ^ 8 = 256 := by norm_num
        rw [this]
        omega)]
      rw [hlen]
      norm_num
    have hr1tot : r1.buf.length + (r1.chunks.map List.length).sum =
        (availBytes c).length - 4 := by
      have h2 := congrArg List.length hr1
      simp only [List.length_append, List.length_flatten, List.length_drop] at h2
      rw [htot]
      exact h2
    constructor
    · intro hfits
      obtain ⟨r2, hf2, hr2⟩ := fillN_ok pktLen r1.buf r1.chunks (by omega)
      refine ⟨{ c with rd := r2 }, ?_, ?_, rfl, rfl, rfl⟩
      · unfold readMySQLPacket
        rw [hf1]
        dsimp only
        rw [hlor, hf2, hr1]
        rfl
      · simp only [availBytes]
        rw [hr2, hr1]
        rw [List.drop_drop]
    · intro hshort
      unfold readMySQLPacket
      rw [hf1]
      dsimp only
      rw [hlor, fillN_err pktLen r1.buf r1.chunks (by omega)]

/-- C5 witness: a 3-byte packet split across several connection
reads. -/
theorem C5_readMySQLPacket_reads_witness :
    (readMySQLPacket (newConn [[3, 0, 0, 5], [7, 8], [9]] [])).1 = .ok [7, 8, 9] := by
  obtain ⟨c1, h1, _, _⟩ :=
    ((C5_readMySQLPacket_reads (newConn [[3, 0, 0, 5], [7, 8], [9]] [])
      (by decide)).2 3 (by decide) (by decide)).1 (by decide)
  rw [h1]
  rfl

/-- C6: after the greeting matches, the SMTP driver writes and flushes
the EHLO command and then loops over reply lines: a line without the 250
prefix fails with the invalid-response error carrying that line, wrapped
by Handshake as smtp: EHLO failed; the loop stops exactly when a read
line leaves the buffered reader empty; the STARTTLS exchange runs only
after the loop succeeds, and the EHLO step itself writes nothing but the
EHLO command. -/
theorem C6_smtp_ehlo :
    (∀ c, sendEHLO c = ehloLoop (flush (writeString c (bytes "EHLO tlstools.com\r\n")))) ∧
    (∀ c, (flush (writeString c (bytes "EHLO tlstools.com\r\n"))).sent =
      c.sent ++ c.wbuf ++ bytes "EHLO tlstools.com\r\n") ∧
    (∀ c line c1, readLine c = (.ok line, c1) → (bytes "250").isPrefixOf line = false →
      ehloLoop c = (some (.invalidResponse line), c1)) ∧
    (∀ c line c1, readLine c = (.ok line, c1) → (bytes "250").isPrefixOf line = true →
      c1.rd.buf.length = 0 → ehloLoop c = (none, c1)) ∧
    (∀ c line c1, readLine c = (.ok line, c1) → (bytes "250").isPrefixOf line = true →
      c1.rd.buf.length ≠ 0 → ehloLoop c = ehloLoop c1) ∧
    (∀ c c1 e c2, expectGreeting (matchStarts "220 ") c = (none, c1) →
      sendEHLO c1 = (some e, c2) →
      smtpHandshake c = (.err (.wrap "smtp: EHLO failed" e), c2)) ∧
    (∀ c, ((sendEHLO c).2).sent = c.sent ++ c.wbuf ++ bytes "EHLO tlstools.com\r\n") ∧
    (∀ c c1 c2, expectGreeting (matchStarts "220 ") c = (none, c1) →
      sendEHLO c1 = (none, c2) →
      smtpHandshake c =
        (match sendStartTLS (bytes "STARTTLS\r\n") (matchStarts "220 ") c2 with
          | (some e2, c3) => (.err (.wrap "smtp: STARTTLS failed" e2), c3)
          | (none, c3) => (.ok, c3))) := by
  refine ⟨fun c => rfl, ?_, ehloLoop_reject, ehloLoop_done, ehloLoop_continue, ?_, ?_, ?_⟩
  · intro c
    simp [flush, writeString]
  · intro c c1 e c2 hG hE
    unfold smtpHandshake
    rw [hG]
    dsimp only
    rw [hE]
  · intro c
    have h := ehloLoop_preserves (flush (writeString c (bytes "EHLO tlstools.com\r\n")))
    rw [show sendEHLO c =
      ehloLoop (flush (writeString c (bytes "EHLO tlstools.com\r\n"))) from rfl]
    rw [h.1]
    simp [flush, writeString]
  · intro c c1 c2 hG hE
    unfold smtpHandshake
    rw [hG]
    dsimp only
    rw [hE]

/-- C6 witness: a non-250 reply line yields the invalid-response error;
a 250 line read with nothing buffered ends the loop. -/
theorem C6_smtp_ehlo_witness :
    ehloLoop ⟨⟨[], [bytes "500 bad\r\n"]⟩, [], [], []⟩ =
      (some (.invalidResponse (bytes "500 bad\r\n")), ⟨⟨[], []⟩, [], [], []⟩) ∧
    ehloLoop ⟨⟨[], [bytes "250 ok\r\n"]⟩, [], [], []⟩ =
      (none, ⟨⟨[], []⟩, [], [], []⟩) := by
  constructor
  · exact C6_smtp_ehlo.2.2.1 _ (bytes "500 bad\r\n") _ (by decide) (by decide)
  · exact C6_smtp_ehlo.2.2.2.1 _ (bytes "250 ok\r\n") _ (by decide) (by decide) (by decide)

/-- C7: the generic upgrade exchange writes the fixed command and
flushes, reads exactly one line, and on a line that does not match the
success pattern fails with the not-supported error (not the
invalid-response error) carrying the whitespace-trimmed reply; in the
SMTP scenario with a capability line 250 NO-STARTTLS followed by a
non-matching upgrade reply, Handshake fails with the not-supported kind
wrapped as smtp: STARTTLS failed. -/
theorem C7_sendStartTLS_reject :
    (∀ authMsg pat c, ((sendStartTLS authMsg pat c).2).sent = c.sent ++ c.wbuf ++ authMsg) ∧
    (∀ authMsg pat c e c1, readLine (flush (writeString c authMsg)) = (.error e, c1) →
      sendStartTLS authMsg pat c = (some e, c1)) ∧
    (∀ authMsg pat c line c1, readLine (flush (writeString c authMsg)) = (.ok line, c1) →
      pat line = true → sendStartTLS authMsg pat c = (none, c1)) ∧
    (∀ authMsg pat c line c1, readLine (flush (writeString c authMsg)) = (.ok line, c1) →
      pat line = false →
      sendStartTLS authMsg pat c = (some (.startTLSNotSupported (trimSpace line)), c1)) ∧
    (smtpHandshake (newConn
        [bytes "220 hi\r\n", bytes "250-x\r\n250 NO-STARTTLS\r\n", bytes "454 no\r\n"] [])).1 =
      .err (.wrap "smtp: STARTTLS failed" (.startTLSNotSupported (bytes "454 no"))) := by
  refine ⟨sendStartTLS_sent, sendStartTLS_error, sendStartTLS_accept, sendStartTLS_reject, ?_⟩
  have hG : expectGreeting (matchStarts "220 ")
      (newConn [bytes "220 hi\r\n", bytes "250-x\r\n250 NO-STARTTLS\r\n",
        bytes "454 no\r\n"] []) =
      (none, ⟨⟨[], [bytes "250-x\r\n250 NO-STARTTLS\r\n", bytes "454 no\r\n"]⟩, [], [], []⟩) :=
    expectGreeting_found _ _ (bytes "220 hi\r\n") _ (by decide) (by decide)
  have hE1 : ehloLoop ⟨⟨[], [bytes "250-x\r\n250 NO-STARTTLS\r\n", bytes "454 no\r\n"]⟩, [],
        bytes "EHLO tlstools.com\r\n", []⟩ =
      ehloLoop ⟨⟨bytes "250 NO-STARTTLS\r\n", [bytes "454 no\r\n"]⟩, [],
        bytes "EHLO tlstools.com\r\n", []⟩ :=
    ehloLoop_continue _ (bytes "250-x\r\n") _ (by decide) (by decide) (by decide)
  have hE2 : ehloLoop ⟨⟨bytes "250 NO-STARTTLS\r\n", [bytes "454 no\r\n"]⟩, [],
        bytes "EHLO tlstools.com\r\n", []⟩ =
      (none, ⟨⟨[], [bytes "454 no\r\n"]⟩, [], bytes "EHLO tlstools.com\r\n", []⟩) :=
    ehloLoop_done _ (bytes "250 NO-STARTTLS\r\n") _ (by decide) (by decide) (by decide)
  have hE : sendEHLO ⟨⟨[], [bytes "250-x\r\n250 NO-STARTTLS\r\n", bytes "454 no\r\n"]⟩,
        [], [], []⟩ =
      (none, ⟨⟨[], [bytes "454 no\r\n"]⟩, [], bytes "EHLO tlstools.com\r\n", []⟩) := by
    unfold sendEHLO
    rw [show flush (writeString ⟨⟨[], [bytes "250-x\r\n250 NO-STARTTLS\r\n",
        bytes "454 no\r\n"]⟩, [], [], []⟩ (bytes "EHLO tlstools.com\r\n")) =
      ⟨⟨[], [bytes "250-x\r\n250 NO-STARTTLS\r\n", bytes "454 no\r\n"]⟩, [],
        bytes "EHLO tlstools.com\r\n", []⟩ from by decide]
    rw [hE1, hE2]
  have hS : sendStartTLS (bytes "STARTTLS\r\n") (matchStarts "220 ")
      ⟨⟨[], [bytes "454 no\r\n"]⟩, [], bytes "EHLO tlstools.com\r\n", []⟩ =
      (some (.startTLSNotSupported (bytes "454 no")),
        ⟨⟨[], []⟩, [], bytes "EHLO tlstools.com\r\n" ++ bytes "STARTTLS\r\n", []⟩) := by
    have h := sendStartTLS_reject (bytes "STARTTLS\r\n") (matchStarts "220 ")
      ⟨⟨[], [bytes "454 no\r\n"]⟩, [], bytes "EHLO tlstools.com\r\n", []⟩
      (bytes "454 no\r\n")
      ⟨⟨[], []⟩, [], bytes "EHLO tlstools.com\r\n" ++ bytes "STARTTLS\r\n", []⟩
      (by decide) (by decide)
    exact h.trans (by decide)
  have hH : smtpHandshake (newConn
      [bytes "220 hi\r\n", bytes "250-x\r\n250 NO-STARTTLS\r\n", bytes "454 no\r\n"] []) =
      (.err (.wrap "smtp: STARTTLS failed" (.startTLSNotSupported (bytes "454 no"))),
        ⟨⟨[], []⟩, [], bytes "EHLO tlstools.com\r\n" ++ bytes "STARTTLS\r\n", []⟩) := by
    unfold smtpHandshake
    rw [hG]
    dsimp only
    rw [hE]
    dsimp only
    rw [hS]
  rw [hH]

/-- C7 witness: a POP3-style rejected upgrade carries the trimmed
response in the not-supported error. -/
theorem C7_sendStartTLS_reject_witness :
    sendStartTLS (bytes "STLS\r\n") (matchStarts "+OK ")
      ⟨⟨[], [bytes "-ERR no\r\n"]⟩, [], [], []⟩ =
      (some (.startTLSNotSupported (bytes "-ERR no")),
        ⟨⟨[], []⟩, [], bytes "STLS\r\n", []⟩) := by
  have h := C7_sendStartTLS_reject.2.2.2.1 (bytes "STLS\r\n") (matchStarts "+OK ")
    ⟨⟨[], [bytes "-ERR no\r\n"]⟩, [], [], []⟩ (bytes "-ERR no\r\n")
    ⟨⟨[], []⟩, [], bytes "STLS\r\n", []⟩ (by decide) (by decide)
  exact h.trans (by decide)

/-- C8: when, before any failing read, some read yields a line that
matches the pattern, expectGreeting terminates successfully in the state
right after the first matching line, having consumed exactly the
non-matching lines before it and that line; when a read error
(cancellation included) comes first, it returns that error; those are
the only ways the loop stops. -/
theorem C8_expectGreeting_first_match :
    (∀ (pat : List Nat → Bool) n c ls c1 line c2,
      linesFrom n c = some (ls, c1) → (∀ l ∈ ls, pat l = false) →
      readLine c1 = (.ok line, c2) → pat line = true →
      expectGreeting pat c = (none, c2)) ∧
    (∀ (pat : List Nat → Bool) n c ls c1 e c2,
      linesFrom n c = some (ls, c1) → (∀ l ∈ ls, pat l = false) →
      readLine c1 = (.error e, c2) →
      expectGreeting pat c = (some e, c2)) := by
  constructor
  · intro pat n
    induction n with
    | zero =>
      intro c ls c1 line c2 hl hnm hr hp
      simp only [linesFrom, Option.some.injEq, Prod.mk.injEq] at hl
      obtain ⟨h1, h2⟩ := hl
      subst h2
      exact expectGreeting_found pat c line c2 hr hp
    | succ n ih =>
      intro c ls c1 line c2 hl hnm hr hp
      simp only [linesFrom] at hl
      rcases hread : readLine c with ⟨res, c0⟩
      rw [hread] at hl
      cases res with
      | error e => simp at hl
      | ok l0 =>
        dsimp only at hl
        rcases hrest : linesFrom n c0 with _ | ⟨ls0, c1'⟩
        · rw [hrest] at hl
          simp at hl
        · rw [hrest] at hl
          simp only [Option.some.injEq, Prod.mk.injEq] at hl
          obtain ⟨hls, hc1⟩ := hl
          subst hc1
          rw [expectGreeting_skip pat c l0 c0 hread
            (hnm l0 (by rw [← hls]; exact List.mem_cons_self l0 ls0))]
          exact ih c0 ls0 _ line c2 hrest
            (fun l hlm => hnm l (by rw [← hls]; exact List.mem_cons_of_mem l0 hlm)) hr hp
  · intro pat n
    induction n with
    | zero =>
      intro c ls c1 e c2 hl hnm hr
      simp only [linesFrom, Option.some.injEq, Prod.mk.injEq] at hl
      obtain ⟨h1, h2⟩ := hl
      subst h2
      exact expectGreeting_error pat c e c2 hr
    | succ n ih =>
      intro c ls c1 e c2 hl hnm hr
      simp only [linesFrom] at hl
      rcases hread : readLine c with ⟨res, c0⟩
      rw [hread] at hl
      cases res with
      | error e0 => simp at hl
      | ok l0 =>
        dsimp only at hl
        rcases hrest : linesFrom n c0 with _ | ⟨ls0, c1'⟩
        · rw [hrest] at hl
          simp at hl
        · rw [hrest] at hl
          simp only [Option.some.injEq, Prod.mk.injEq] at hl
          obtain ⟨hls, hc1⟩ := hl
          subst hc1
          rw [expectGreeting_skip pat c l0 c0 hread
            (hnm l0 (by rw [← hls]; exact List.mem_cons_self l0 ls0))]
          exact ih c0 ls0 _ e c2 hrest
            (fun l hlm => hnm l (by rw [← hls]; exact List.mem_cons_of_mem l0 hlm)) hr

/-- C8 witness: one junk line is discarded, the matching greeting ends
the loop. -/
theorem C8_expectGreeting_first_match_witness :
    expectGreeting (matchStarts "220 ")
      (newConn [bytes "junk\r\n", bytes "220 ok\r\n"] []) =
      (none, ⟨⟨[], []⟩, [], [], []⟩) := by
  exact C8_expectGreeting_first_match.1 (matchStarts "220 ") 1
    (newConn [bytes "junk\r\n", bytes "220 ok\r\n"] [])
    [bytes "junk\r\n"] ⟨⟨[], [bytes "220 ok\r\n"]⟩, [], [], []⟩
    (bytes "220 ok\r\n") ⟨⟨[], []⟩, [], [], []⟩
    (by decide) (by decide) (by decide) (by decide)

/-- C9: readLine has exactly three outcomes: the cancellation error when
the token fires before the read completes; the end-of-stream error when
no newline remains in the stream; otherwise the raw first line of the
stream, untrimmed, up to and including its terminating newline. -/
theorem C9_readLine_outcomes (c : Conn) :
    (c.cancels.headD false = true →
      readLine c = (.error .cancelled, { c with cancels := c.cancels.tail })) ∧
    (c.cancels.headD false = false → 10 ∉ availBytes c →
      readLine c = (.error .eof, { c with cancels := c.cancels.tail })) ∧
    (c.cancels.headD false = false → 10 ∈ availBytes c →
      ∃ c1, readLine c = (.ok (takeLine (availBytes c)), c1) ∧
        (∃ init, takeLine (availBytes c) = init ++ [10]) ∧
        (∃ t, takeLine (availBytes c) ++ t = availBytes c)) := by
  refine ⟨?_, ?_, ?_⟩
  · intro hc
    unfold readLine
    rw [if_pos hc]
  · intro hc hn
    unfold readLine
    have hc2 : c.cancels.head?.getD false = false := by
      rw [← List.headD_eq_head?_getD]
      exact hc
    rw [if_neg (by simp [hc2]), fillLine_no_newline c.rd.buf c.rd.chunks hn]
  · intro hc hn
    obtain ⟨r, hr⟩ := fillLine_with_newline c.rd.buf c.rd.chunks hn
    refine ⟨{ c with rd := r, cancels := c.cancels.tail }, ?_,
      takeLine_ends_newline _ hn, ⟨dropLine (availBytes c), takeLine_append_dropLine _ hn⟩⟩
    unfold readLine
    have hc2 : c.cancels.head?.getD false = false := by
      rw [← List.headD_eq_head?_getD]
      exact hc
    rw [if_neg (by simp [hc2]), hr]
    rfl

/-- C9 witness: a line read including its newline, and a cancellation
that fires before the read. -/
theorem C9_readLine_outcomes_witness :
    (∃ c1, readLine (newConn [[97, 98, 10, 99]] []) = (.ok [97, 98, 10], c1)) ∧
    readLine ⟨⟨[], []⟩, [], [], [true]⟩ =
      (.error .cancelled, ⟨⟨[], []⟩, [], [], []⟩) := by
  constructor
  · obtain ⟨c1, h1, _, _⟩ :=
      (C9_readLine_outcomes (newConn [[97, 98, 10, 99]] [])).2.2 rfl (by decide)
    exact ⟨c1, h1⟩
  · exact (C9_readLine_outcomes ⟨⟨[], []⟩, [], [], [true]⟩).1 rfl

/-- C10: the EHLO drain loop decides termination only by the buffer
being empty and never looks past the 250 prefix: a continuation line
starting with 250- read at a moment when nothing further is buffered
ends the loop successfully, and the driver goes on to send the upgrade
command although the multi-line reply is incomplete. -/
theorem C10_ehlo_continuation_accepted :
    (∀ c line c1, readLine c = (.ok line, c1) →
      (bytes "250-").isPrefixOf line = true → c1.rd.buf = [] →
      ehloLoop c = (none, c1)) ∧
    smtpHandshake (newConn [bytes "220 hi\r\n", bytes "250-STARTTLS\r\n",
        bytes "220 go\r\n"] []) =
      (.ok, ⟨⟨[], []⟩, [], bytes "EHLO tlstools.com\r\n" ++ bytes "STARTTLS\r\n", []⟩) := by
  constructor
  · intro c line c1 h hp hb
    exact ehloLoop_done c line c1 h (prefix250_of_continuation line hp)
      (by rw [hb]; rfl)
  · have hG : expectGreeting (matchStarts "220 ")
        (newConn [bytes "220 hi\r\n", bytes "250-STARTTLS\r\n", bytes "220 go\r\n"] []) =
        (none, ⟨⟨[], [bytes "250-STARTTLS\r\n", bytes "220 go\r\n"]⟩, [], [], []⟩) :=
      expectGreeting_found _ _ (bytes "220 hi\r\n") _ (by decide) (by decide)
    have hE2 : ehloLoop ⟨⟨[], [bytes "250-STARTTLS\r\n", bytes "220 go\r\n"]⟩, [],
          bytes "EHLO tlstools.com\r\n", []⟩ =
        (none, ⟨⟨[], [bytes "220 go\r\n"]⟩, [], bytes "EHLO tlstools.com\r\n", []⟩) :=
      ehloLoop_done _ (bytes "250-STARTTLS\r\n") _ (by decide) (by decide) (by decide)
    have hE : sendEHLO ⟨⟨[], [bytes "250-STARTTLS\r\n", bytes "220 go\r\n"]⟩, [], [], []⟩ =
        (none, ⟨⟨[], [bytes "220 go\r\n"]⟩, [], bytes "EHLO tlstools.com\r\n", []⟩) := by
      unfold sendEHLO
      rw [show flush (writeString ⟨⟨[], [bytes "250-STARTTLS\r\n", bytes "220 go\r\n"]⟩,
          [], [], []⟩ (bytes "EHLO tlstools.com\r\n")) =
        ⟨⟨[], [bytes "250-STARTTLS\r\n", bytes "220 go\r\n"]⟩, [],
          bytes "EHLO tlstools.com\r\n", []⟩ from by decide]
      exact hE2
    have hS : sendStartTLS (bytes "STARTTLS\r\n") (matchStarts "220 ")
        ⟨⟨[], [bytes "220 go\r\n"]⟩, [], bytes "EHLO tlstools.com\r\n", []⟩ =
        (none, ⟨⟨[], []⟩, [], bytes "EHLO tlstools.com\r\n" ++ bytes "STARTTLS\r\n", []⟩) :=
      sendStartTLS_accept _ _ _ (bytes "220 go\r\n") _ (by decide) (by decide)
    unfold smtpHandshake
    rw [hG]
    dsimp only
    rw [hE]
    dsimp only
    rw [hS]

/-- C10 witness: a lone 250- continuation line with an empty buffer ends
the drain loop successfully. -/
theorem C10_ehlo_continuation_accepted_witness :
    ehloLoop ⟨⟨[], [bytes "250-ok\r\n"]⟩, [], [], []⟩ =
      (none, ⟨⟨[], []⟩, [], [], []⟩) := by
  exact C10_ehlo_continuation_accepted.1 _ (bytes "250-ok\r\n") _
    (by decide) (by decide) (by decide)

/-- C1 witness: concrete instantiations of the implicit-TLS and the
unsupported-port cases. -/
theorem C1_dispatch_witness :
    StartTLS "443" [[50]] [] = (.ok, newConn [[50]] []) ∧
    StartTLS "8080" [] [] = (.err (.unsupportedProtocol "8080"), newConn [] []) := by
  constructor
  · exact C1_dispatch.2.2.2.2.2.2.1 "443" [[50]] [] (by decide)
  · exact C1_dispatch.2.2.2.2.2.2.2 "8080" [] [] (by decide) (by decide)

end STLS
